import Mathlib

/-!
Shallow embedding of the PR activity monitor of the toolbelt repository
(src/toolbelt/github/pr_monitor.py, src/toolbelt/github/api.py,
src/toolbelt/github/client.py).

The monitor is a polling state machine: `poll_once` discovers the user's
open authored PRs, fetches per-PR detail, diffs it against the stored
previous snapshot, fires hook events and updates the store.  Network
fetches are modelled as inputs (`PrFetchData` carries the result of the
per-PR fetches); hook invocations are modelled as an emitted event list,
in invocation order; Python exceptions are modelled with `Except`.
-/

/-- Status of a check run (api.py, `CheckRunStatus`). -/
inductive CheckRunStatus
  | completed
  | in_progress
  | queued
deriving DecidableEq

/-- Conclusion of a completed check run (api.py, `CheckRunConclusion`). -/
inductive CheckRunConclusion
  | action_required
  | cancelled
  | failure
  | neutral
  | skipped
  | stale
  | success
  | timed_out
deriving DecidableEq

/-- A check run (api.py, `CheckRun`): id, optional conclusion, status. -/
structure CheckRun where
  id : Nat
  conclusion : Option CheckRunConclusion
  status : CheckRunStatus
deriving DecidableEq

/-- Review verdict state (api.py, `ReviewState`). -/
inductive ReviewState
  | approved
  | changes_requested
  | commented
  | dismissed
  | pending
deriving DecidableEq

/-- A GitHub user (api.py, `GithubUser`): only the login. -/
structure GithubUser where
  login : String
deriving DecidableEq

/-- A PR review (api.py, `Review`): id, state, user. -/
structure Review where
  id : Nat
  state : ReviewState
  user : GithubUser
deriving DecidableEq

/-- An issue-level (timeline) comment (api.py, `IssueComment`).  The
`html_url`, `url` and `body` string fields are carried by the source
model but never consumed by the monitor logic; they are omitted. -/
structure IssueComment where
  id : Nat
  user : GithubUser
deriving DecidableEq

/-- A review (inline) comment (api.py, `ReviewComment`).  Note the
declared field set: `id`, `pull_request_review_id`, `in_reply_to_id`,
`user` (plus url strings, omitted here as they are never consumed).
There is no field named `review_id`. -/
structure ReviewComment where
  id : Nat
  pull_request_review_id : Option Nat
  in_reply_to_id : Option Nat
  user : GithubUser
deriving DecidableEq

/-- The per-PR snapshot stored by the monitor (pr_monitor.py, `PrState`).
`mergeable_state` and `review_decision` are `str | None` in the source
dataclass. -/
structure PrState where
  mergeable_state : Option String := none
  review_decision : Option String := none
  check_runs : List CheckRun := []
  last_check_run_id : Nat := 0
  last_review_id : Nat := 0
  last_issue_comment_id : Nat := 0
  last_review_comment_id : Nat := 0
deriving DecidableEq

/-- A review together with its grouped inline comments
(pr_monitor.py, `ReviewWithComments`). -/
structure ReviewWithComments where
  review : Review
  comments : List ReviewComment
deriving DecidableEq

/-- A lightweight PR reference passed to hooks (pr_monitor.py, `PrRef`). -/
structure PrRef where
  repo : String
  number : Nat
deriving DecidableEq

/-- One hook invocation of `PrMonitorHooks` (pr_monitor.py).  The
monitor's own hook interface passes the updated `CheckRun` to
`on_ci_status_change`, one invocation per run. -/
inductive Event
  | merge_conflict (pr : PrRef)
  | new_review (pr : PrRef) (reviews : List ReviewWithComments)
  | new_issue_comment (pr : PrRef) (comments : List IssueComment)
  | ci_status_change (pr : PrRef) (check_run : CheckRun)
deriving DecidableEq

/-- True exactly on `ci_status_change` events. -/
def Event.isCi : Event → Bool
  | .ci_status_change _ _ => true
  | _ => false

/-- True exactly on `merge_conflict` events. -/
def Event.isMergeConflict : Event → Bool
  | .merge_conflict _ => true
  | _ => false

/-- A Python exception escaping the monitor, by attribute name for
`AttributeError`. -/
inductive PyError
  | attributeError (name : String)
deriving DecidableEq

/-- The result of the per-PR fetches performed at the top of
`PrMonitor._process_pr` (pr_monitor.py lines 160-185): the search
result's `number` and `title`, the PR detail's base-repo full name,
`mergeable_state` and `review_decision`, and the fetched reviews,
issue comments, review comments and check runs. -/
structure PrFetchData where
  repo : String
  number : Nat
  title : String
  mergeable_state : Option String
  review_decision : Option String
  reviews : List Review
  issue_comments : List IssueComment
  review_comments : List ReviewComment
  check_runs : List CheckRun
deriving DecidableEq

/-- The monitor's state store `self._state : dict[str, PrState]`,
as an insertion-ordered association list (Python dict semantics). -/
abbrev Store := List (String × PrState)

/-- Dict lookup `self._state[key]` / `key in self._state`. -/
def Store.get (s : Store) (k : String) : Option PrState :=
  (s.find? (fun kv => kv.1 == k)).map (fun kv => kv.2)

/-- Dict assignment `self._state[key] = v`: replaces the value in place
when the key is present, appends otherwise (Python insertion order). -/
def Store.insert (s : Store) (k : String) (v : PrState) : Store :=
  if s.any (fun kv => kv.1 == k) then
    s.map (fun kv => if kv.1 == k then (k, v) else kv)
  else
    s ++ [(k, v)]

/-- `PrMonitor._max_id` (pr_monitor.py lines 320-322):
`max((item.id for item in items), default=0)`, over the extracted ids. -/
def maxId (ids : List Nat) : Nat :=
  ids.foldr max 0

/-- Insertion step of a stable ascending sort: place `x` before the
first element of strictly greater key, hence after any element of equal
key already present. -/
def insertSorted (key : α → Nat) (x : α) : List α → List α
  | [] => [x]
  | y :: ys => if key x < key y then x :: y :: ys else y :: insertSorted key x ys

/-- Python `sorted(items, key=lambda item: item.id)`: stable ascending
sort by the given key, as left-to-right insertion. -/
def sortById (key : α → Nat) (l : List α) : List α :=
  l.foldl (fun acc x => insertSorted key x acc) []

/-- `PrMonitor._summarize_pr_key` (pr_monitor.py lines 232-234):
the f-string `"{repo}#{number} ({title})"`. -/
def summarizePrKey (repo : String) (number : Nat) (title : String) : String :=
  repo ++ "#" ++ toString number ++ " (" ++ title ++ ")"

/-- The store key `_process_pr` computes for a fetched PR
(pr_monitor.py line 199). -/
def prKeyOf (d : PrFetchData) : String :=
  summarizePrKey d.repo d.number d.title

/-- The fresh `current_state` built in `_process_pr`
(pr_monitor.py lines 189-197). -/
def currentStateOf (d : PrFetchData) : PrState :=
  { mergeable_state := d.mergeable_state
    review_decision := d.review_decision
    check_runs := d.check_runs
    last_check_run_id := maxId (d.check_runs.map CheckRun.id)
    last_review_id := maxId (d.reviews.map Review.id)
    last_issue_comment_id := maxId (d.issue_comments.map IssueComment.id)
    last_review_comment_id := maxId (d.review_comments.map ReviewComment.id) }

/-- `PrMonitor._handle_mergeable_change` (pr_monitor.py lines 236-245):
return if unchanged; fire `on_merge_conflict` if the new state equals
`PullRequestMergeableState.DIRTY` (the string "dirty"). -/
def handleMergeableChange (pr : PrRef) (previous : PrState)
    (current : Option String) : List Event :=
  if current = previous.mergeable_state then []
  else if current = some "dirty" then [Event.merge_conflict pr]
  else []

/-- The attribute access `comment.review_id` performed by
`_handle_new_reviews` (pr_monitor.py lines 267 and 272).  The
`ReviewComment` pydantic model (api.py lines 230-238) declares
`pull_request_review_id` and no field named `review_id`, and its config
ignores extra attributes, so this access raises `AttributeError` at
runtime; it is embedded as that error. -/
def reviewCommentReviewIdAttr (_c : ReviewComment) : Except PyError Nat :=
  .error (.attributeError "review_id")

/-- `PrMonitor._handle_new_reviews` (pr_monitor.py lines 247-288).
Filters reviews and review comments above the stored last ids, returns
with no event when both are empty, then evaluates the review-id set and
grouping comprehensions (each of which accesses `comment.review_id`,
see `reviewCommentReviewIdAttr`), builds one `ReviewWithComments` per
distinct review id found in the fetched reviews (Python dict
comprehension: the last review with a given id wins), and fires
`on_new_review` once when any entry was built. -/
def handleNewReviews (pr : PrRef) (reviews : List Review)
    (review_comments : List ReviewComment) (previous : PrState) :
    Except PyError (List Event) := do
  let new_reviews := reviews.filter (fun r => previous.last_review_id < r.id)
  let new_review_comments :=
    review_comments.filter (fun c => previous.last_review_comment_id < c.id)
  if new_reviews.isEmpty && new_review_comments.isEmpty then
    return []
  let commentReviewIds ← new_review_comments.mapM reviewCommentReviewIdAttr
  let review_ids := (new_reviews.map Review.id ++ commentReviewIds).dedup
  let groupedPairs ← (sortById ReviewComment.id new_review_comments).mapM
    (fun c => do
      let rid ← reviewCommentReviewIdAttr c
      pure (rid, c))
  let review_entries := (sortById (fun i => i) review_ids).filterMap
    (fun rid =>
      match reviews.reverse.find? (fun r => r.id == rid) with
      | none => none
      | some review =>
        some { review := review
               comments := (groupedPairs.filter (fun p => p.1 == rid)).map
                 (fun p => p.2) })
  if review_entries.isEmpty then
    return []
  return [Event.new_review pr review_entries]

/-- `PrMonitor._handle_new_issue_comments` (pr_monitor.py lines 290-302):
fire `on_new_issue_comment` once with the id-sorted comments above the
stored last id, or nothing when there are none. -/
def handleNewIssueComments (pr : PrRef) (comments : List IssueComment)
    (last_comment_id : Nat) : List Event :=
  let new_comments := comments.filter (fun c => last_comment_id < c.id)
  if new_comments.isEmpty then []
  else [Event.new_issue_comment pr (sortById IssueComment.id new_comments)]

/-- `PrMonitor._handle_ci_status_change` (pr_monitor.py lines 304-318):
fire `on_ci_status_change` once per fetched check run whose id exceeds
the stored `last_check_run_id`, ascending by id.  (The source guard
`run.id is not None` is always true here since `CheckRun.id` is a
required field.) -/
def handleCiStatusChange (pr : PrRef) (previous : PrState)
    (current : List CheckRun) : List Event :=
  let new_runs := current.filter (fun r => previous.last_check_run_id < r.id)
  (sortById CheckRun.id new_runs).map (Event.ci_status_change pr)

/-- `PrMonitor._process_pr` (pr_monitor.py lines 160-230), past its
fetches: build `current_state`; on first sight of the key store it and
return the key with no events; otherwise run the four diff handlers
against the previous snapshot (an exception from a handler propagates
and the store is then left untouched), store `current_state`, and
return the key. -/
def processPr (state : Store) (d : PrFetchData) :
    Except PyError (Store × List Event × String) :=
  let current := currentStateOf d
  let pr_key := prKeyOf d
  match state.get pr_key with
  | none => .ok (state.insert pr_key current, [], pr_key)
  | some previous =>
    let pr : PrRef := { repo := d.repo, number := d.number }
    let ev1 := handleMergeableChange pr previous d.mergeable_state
    match handleNewReviews pr d.reviews d.review_comments previous with
    | .error e => .error e
    | .ok ev2 =>
      let ev3 := handleNewIssueComments pr d.issue_comments
        previous.last_issue_comment_id
      let ev4 := handleCiStatusChange pr previous d.check_runs
      .ok (state.insert pr_key current, ev1 ++ ev2 ++ ev3 ++ ev4, pr_key)

/-- The per-PR loop inside `PrMonitor.poll_once` (pr_monitor.py lines
149-153): process each fetched PR in order, threading the store,
concatenating the fired events and collecting the truthy (non-empty)
returned keys into `seen_keys`. -/
def processAll (state : Store) :
    List PrFetchData → Except PyError (Store × List Event × List String)
  | [] => .ok (state, [], [])
  | d :: rest =>
    match processPr state d with
    | .error e => .error e
    | .ok (st1, ev, key) =>
      match processAll st1 rest with
      | .error e => .error e
      | .ok (st2, evs, seen) =>
        .ok (st2, ev ++ evs, (if key ≠ "" then [key] else []) ++ seen)

/-- `PrMonitor.poll_once` (pr_monitor.py lines 143-158), with the search
results supplied as input: process every PR, then drop every stored key
not in `seen_keys` (the stale sweep, lines 155-158). -/
def pollOnce (state : Store) (prs : List PrFetchData) :
    Except PyError (Store × List Event) :=
  match processAll state prs with
  | .error e => .error e
  | .ok (st, evs, seen) =>
    .ok (st.filter (fun kv => seen.contains kv.1), evs)

/-- `PrMonitorRunner.run` (pr_monitor.py lines 336-345): the body is
`while True: await monitor.poll_once()` with no exception handling and
no sleep.  Modelled over a finite prefix of poll-cycle outcomes:
`some e` means the loop terminated because a cycle raised `e` (the
exception escapes `run`); `none` means the prefix was consumed and the
loop is still running. -/
def runLoop : List (Except PyError Unit) → Option PyError
  | [] => none
  | .error e :: _ => some e
  | .ok _ :: rest => runLoop rest

/-- The page loop of `GithubClient._paginate` (client.py lines 99-111):
starting from page 1, fetch pages and concatenate until an empty page.
`fuel` bounds the number of pages inspected (the source loop is
unbounded); the result is independent of the bound once an empty page
occurs within it. -/
def paginateFrom (pages : Nat → List α) : Nat → Nat → List α
  | _, 0 => []
  | page, fuel + 1 =>
    let items := pages page
    if items.isEmpty then []
    else items ++ paginateFrom pages (page + 1) fuel

/-- `GithubClient._paginate` (client.py): page numbering starts at 1. -/
def paginate (pages : Nat → List α) (fuel : Nat) : List α :=
  paginateFrom pages 1 fuel

/-- The search URL built by `fetch_page` inside
`search_open_authored_prs` (api.py lines 259-272), with the same
f-string segmentation. -/
def searchIssuesUrl (username : String) (page : Nat) : String :=
  "https://api.github.com/search/issues" ++
    ("?q=is:pr+is:open+author:" ++ username ++ "+archived:false+-draft:true") ++
    ("&per_page=100&page=" ++ toString page ++ "&sort=updated")

/-- Whether the character list `pat` starts the character list given
second. -/
def listStartsWith : List Char → List Char → Bool
  | [], _ => true
  | _ :: _, [] => false
  | p :: ps, c :: cs => p == c && listStartsWith ps cs

/-- Whether the character list `pat` occurs contiguously in the second
list. -/
def containsSeq (pat : List Char) : List Char → Bool
  | [] => listStartsWith pat []
  | c :: cs => listStartsWith pat (c :: cs) || containsSeq pat cs

/-- Whether `pat` occurs as a substring of `s`. -/
def strContainsSub (s pat : String) : Bool :=
  containsSeq pat.data s.data

/-- Modelled from the spec: the `all_completed` predicate of the CI
completion transition in section 4.2 (`check_runs` non-empty and every
run's status `completed`).  `pr_monitor.py` computes no such value; this
definition exists only to state the spec-side CI claims against the
code. -/
def allCompleted (runs : List CheckRun) : Bool :=
  !runs.isEmpty && runs.all (fun r => r.status = CheckRunStatus.completed)

/-! ### Concrete scenario inputs used by counterexamples and witnesses -/

/-- A reviewer login used by concrete scenarios. -/
def revUser : GithubUser := { login := "rev" }

/-- Previous snapshot of the CI scenario: one in-progress check run with
id 1 observed on the prior poll. -/
def ciPrev : PrState :=
  { mergeable_state := some "clean"
    check_runs := [{ id := 1, conclusion := none, status := .in_progress }]
    last_check_run_id := 1 }

/-- Current fetch of the CI scenario: the same check run, now completed
with conclusion failure. -/
def ciData : PrFetchData :=
  { repo := "octo/repo", number := 1, title := "t"
    mergeable_state := some "clean", review_decision := none
    reviews := [], issue_comments := [], review_comments := []
    check_runs := [{ id := 1, conclusion := some .failure, status := .completed }] }

/-- Store holding the CI scenario's previous snapshot. -/
def ciStore : Store := [(prKeyOf ciData, ciPrev)]

/-- Previous snapshot of the new-review scenario of the spec:
`last_review_id = 5`, `last_review_comment_id = 100`. -/
def rvPrev : PrState := { last_review_id := 5, last_review_comment_id := 100 }

/-- Current fetch of the new-review scenario of the spec: reviews 6 and
7, with inline comment 101 on review 6 and 102 on review 7. -/
def rvData : PrFetchData :=
  { repo := "octo/repo", number := 2, title := "t2"
    mergeable_state := none, review_decision := none
    reviews := [{ id := 6, state := .commented, user := revUser },
                { id := 7, state := .commented, user := revUser }]
    issue_comments := []
    review_comments :=
      [{ id := 101, pull_request_review_id := some 6, in_reply_to_id := none,
         user := revUser },
       { id := 102, pull_request_review_id := some 7, in_reply_to_id := none,
         user := revUser }]
    check_runs := [] }

/-- Store holding the new-review scenario's previous snapshot. -/
def rvStore : Store := [(prKeyOf rvData, rvPrev)]

/-- Modelled from the spec: a value is the maximum of a list of ids, or
zero when the list is empty (section 8, round-trip of ids). -/
def IsMaxOrZero (m : Nat) (ids : List Nat) : Prop :=
  (ids = [] ∧ m = 0) ∨ (m ∈ ids ∧ ∀ x ∈ ids, x ≤ m)

/-! ### Helper lemmas -/

theorem store_get_insert_self (s : Store) (k : String) (v : PrState) :
    (s.insert k v).get k = some v := by
  unfold Store.insert
  split
  · next hany =>
    unfold Store.get
    induction s with
    | nil => simp at hany
    | cons kv rest ih =>
      simp only [List.any_cons, Bool.or_eq_true] at hany
      by_cases hk : kv.1 == k
      · simp [List.find?, hk]
      · simp only [List.map_cons, if_neg (by simpa using hk)]
        rw [List.find?]
        simp only [hk, Bool.false_eq_true, ite_false]
        rcases hany with h | h
        · simp [hk] at h
        · exact ih h
  · unfold Store.get
    rw [List.find?_append]
    next hany =>
      have hnone : s.find? (fun kv => kv.1 == k) = none := by
        rw [List.find?_eq_none]
        intro kv hkv
        intro hbeq
        exact hany (List.any_eq_true.mpr ⟨kv, hkv, hbeq⟩)
      simp [hnone, List.find?]

theorem maxId_isMaxOrZero (ids : List Nat) : IsMaxOrZero (maxId ids) ids := by
  induction ids with
  | nil => exact Or.inl ⟨rfl, rfl⟩
  | cons x xs ih =>
    right
    rcases ih with ⟨hnil, _⟩ | ⟨hmem, hub⟩
    · subst hnil
      constructor
      · simp [maxId]
      · intro y hy
        simp only [List.mem_singleton] at hy
        simp [maxId, hy]
    · have hfold : maxId (x :: xs) = max x (maxId xs) := rfl
      constructor
      · rcases Nat.le_total x (maxId xs) with h | h
        · rw [hfold, Nat.max_eq_right h]
          exact List.mem_cons_of_mem _ hmem
        · rw [hfold, Nat.max_eq_left h]
          exact List.mem_cons_self _ _
      · intro y hy
        rcases List.mem_cons.mp hy with rfl | hy
        · rw [hfold]; exact Nat.le_max_left _ _
        · rw [hfold]
          exact Nat.le_trans (hub y hy) (Nat.le_max_right _ _)

theorem summarizePrKey_ne_empty (r : String) (n : Nat) (t : String) :
    summarizePrKey r n t ≠ "" := by
  intro h
  have hd := congrArg String.data h
  simp only [summarizePrKey, String.data_append] at hd
  simp [List.append_eq_nil] at hd

/-- Claim C6 helper: the baseline branch of `_process_pr`. -/
theorem processPr_not_seen (st : Store) (d : PrFetchData)
    (h : st.get (prKeyOf d) = none) :
    processPr st d = .ok (st.insert (prKeyOf d) (currentStateOf d), [], prKeyOf d) := by
  simp only [processPr, h]

/-! ### Claim theorems -/

/-- C5: `on_merge_conflict` fires exactly when the mergeable state
changed and the new state is `dirty`; it never fires on an unchanged
state or on a transition into a non-dirty state, and when the previous
state is already `dirty` a second `dirty` observation fires nothing. -/
theorem merge_conflict_edge_trigger (pr : PrRef) (previous : PrState)
    (current : Option String) :
    (handleMergeableChange pr previous current = [Event.merge_conflict pr] ↔
      current ≠ previous.mergeable_state ∧ current = some "dirty")
    ∧ (¬(current ≠ previous.mergeable_state ∧ current = some "dirty") →
        handleMergeableChange pr previous current = [])
    ∧ (previous.mergeable_state = some "dirty" → current = some "dirty" →
        handleMergeableChange pr previous current = []) := by
  refine ⟨?_, ?_, ?_⟩
  · constructor
    · intro h
      unfold handleMergeableChange at h
      by_cases h1 : current = previous.mergeable_state
      · simp [h1] at h
      · by_cases h2 : current = some "dirty"
        · exact ⟨h1, h2⟩
        · simp [h1, h2] at h
    · rintro ⟨hne, hdirty⟩
      unfold handleMergeableChange
      rw [if_neg hne, if_pos hdirty]
  · intro hnot
    unfold handleMergeableChange
    by_cases h1 : current = previous.mergeable_state
    · rw [if_pos h1]
    · by_cases h2 : current = some "dirty"
      · exact absurd ⟨h1, h2⟩ hnot
      · rw [if_neg h1, if_neg h2]
  · intro hprev hcur
    unfold handleMergeableChange
    rw [if_pos (hcur.trans hprev.symm)]

/-- C5 witness: a clean-to-dirty transition fires, and a dirty-to-dirty
repeat observation fires nothing. -/
theorem merge_conflict_edge_trigger_witness :
    (handleMergeableChange { repo := "octo/repo", number := 1 }
        { mergeable_state := some "clean" } (some "dirty") =
      [Event.merge_conflict { repo := "octo/repo", number := 1 }])
    ∧ handleMergeableChange { repo := "octo/repo", number := 1 }
        { mergeable_state := some "dirty" } (some "dirty") = [] := by
  constructor
  · exact (merge_conflict_edge_trigger { repo := "octo/repo", number := 1 }
      { mergeable_state := some "clean" } (some "dirty")).1.mpr
      ⟨by decide, rfl⟩
  · exact (merge_conflict_edge_trigger { repo := "octo/repo", number := 1 }
      { mergeable_state := some "dirty" } (some "dirty")).2.2 rfl rfl

/-- C6: the first poll that observes a PR identity stores its full
current snapshot, fires no hook event, and reports the (non-empty,
hence recorded as seen) key. -/
theorem baseline_poll_no_events (st : Store) (d : PrFetchData)
    (h : st.get (prKeyOf d) = none) :
    processPr st d =
        .ok (st.insert (prKeyOf d) (currentStateOf d), [], prKeyOf d)
    ∧ (st.insert (prKeyOf d) (currentStateOf d)).get (prKeyOf d) =
        some (currentStateOf d)
    ∧ prKeyOf d ≠ "" := by
  refine ⟨processPr_not_seen st d h, store_get_insert_self st _ _, ?_⟩
  exact summarizePrKey_ne_empty d.repo d.number d.title

/-- C6 witness: the first observation of the CI-scenario PR on an empty
store. -/
theorem baseline_poll_no_events_witness :
    processPr [] ciData =
        .ok (Store.insert [] (prKeyOf ciData) (currentStateOf ciData), [],
          prKeyOf ciData)
    ∧ (Store.insert [] (prKeyOf ciData) (currentStateOf ciData)).get
        (prKeyOf ciData) = some (currentStateOf ciData)
    ∧ prKeyOf ciData ≠ "" :=
  baseline_poll_no_events [] ciData rfl

/-- Both success paths of `_process_pr` return the summarize key and
store the freshly built `current_state` under it. -/
theorem processPr_ok_inv (st : Store) (d : PrFetchData) (st2 : Store)
    (evs : List Event) (key : String)
    (h : processPr st d = .ok (st2, evs, key)) :
    key = prKeyOf d ∧ st2 = st.insert (prKeyOf d) (currentStateOf d) := by
  cases hget : st.get (prKeyOf d) with
  | none =>
    simp only [processPr, hget] at h
    simp only [Except.ok.injEq, Prod.mk.injEq] at h
    exact ⟨h.2.2.symm, h.1.symm⟩
  | some prev =>
    simp only [processPr, hget] at h
    cases hr : handleNewReviews { repo := d.repo, number := d.number }
        d.reviews d.review_comments prev with
    | error e => rw [hr] at h; simp at h
    | ok ev2 =>
      rw [hr] at h
      simp only [Except.ok.injEq, Prod.mk.injEq] at h
      exact ⟨h.2.2.symm, h.1.symm⟩

/-- Every key collected into `seen_keys` during a successful poll is the
summarize key of one of the fetched PRs. -/
theorem processAll_seen (prs : List PrFetchData) : ∀ (st st2 : Store)
    (evs : List Event) (seen : List String),
    processAll st prs = .ok (st2, evs, seen) →
    ∀ k ∈ seen, ∃ d ∈ prs, prKeyOf d = k := by
  induction prs with
  | nil =>
    intro st st2 evs seen h k hk
    simp only [processAll, Except.ok.injEq, Prod.mk.injEq] at h
    rw [← h.2.2] at hk
    simp at hk
  | cons d rest ih =>
    intro st st2 evs seen h k hk
    unfold processAll at h
    split at h
    · exact absurd h (by simp)
    · rename_i st1 ev key hp
      split at h
      · exact absurd h (by simp)
      · rename_i stB evsB seenB ha
        simp only [Except.ok.injEq, Prod.mk.injEq] at h
        rw [← h.2.2] at hk
        rcases List.mem_append.mp hk with hk1 | hk2
        · have hkey : k = key := by
            by_cases hne : key = ""
            · simp [hne] at hk1
            · simp [hne] at hk1; exact hk1
          obtain ⟨hk2, _⟩ := processPr_ok_inv st d st1 ev key hp
          exact ⟨d, List.mem_cons_self d rest, by rw [← hk2, hkey]⟩
        · obtain ⟨d2, hd2, hd2k⟩ := ih st1 stB evsB seenB ha k hk2
          exact ⟨d2, List.mem_cons_of_mem d hd2, hd2k⟩

/-- Lookup misses on the swept store for any key outside `seen`. -/
theorem store_get_filter_not_mem (s : Store) (seen : List String)
    (k : String) (h : ¬ k ∈ seen) :
    Store.get (s.filter (fun kv => seen.contains kv.1)) k = none := by
  unfold Store.get
  have hfind : (s.filter (fun kv => seen.contains kv.1)).find?
      (fun kv => kv.1 == k) = none := by
    rw [List.find?_eq_none]
    intro kv hkv hbeq
    have hmem := (List.mem_filter.mp hkv).2
    have : kv.1 ∈ seen := by simpa using hmem
    rw [eq_of_beq hbeq] at this
    exact h this
  rw [hfind]
  rfl

/-- C7: after a completed `poll_once`, no key outside the poll's result
set survives in the store: the stale sweep removes every stored entry
whose key was not produced by this poll. -/
theorem stale_state_removed (st : Store) (prs : List PrFetchData)
    (st2 : Store) (evs : List Event)
    (h : pollOnce st prs = .ok (st2, evs)) (k : String)
    (hk : ∀ d ∈ prs, prKeyOf d ≠ k) :
    st2.get k = none := by
  unfold pollOnce at h
  cases ha : processAll st prs with
  | error e => rw [ha] at h; simp at h
  | ok res =>
    obtain ⟨stA, evsA, seen⟩ := res
    rw [ha] at h
    simp only [Except.ok.injEq, Prod.mk.injEq] at h
    rw [← h.1]
    apply store_get_filter_not_mem
    intro hmem
    obtain ⟨d, hd, hdk⟩ := processAll_seen prs st stA evsA seen ha k hmem
    exact hk d hd hdk

/-- C7 witness: a store entry for a PR absent from the poll's (empty)
result set is gone after the poll. -/
theorem stale_state_removed_witness :
    Store.get [] "octo/repo#9 (gone)" = none :=
  stale_state_removed [("octo/repo#9 (gone)", {})] [] [] [] rfl
    "octo/repo#9 (gone)" (fun d hd => absurd hd (List.not_mem_nil d))

/-- C9: a successful `_process_pr` stores exactly the fresh snapshot,
whose four `last_*_id` fields are the maximum id of the corresponding
fetched list, or zero when that list is empty. -/
theorem stored_ids_round_trip (st : Store) (d : PrFetchData) (st2 : Store)
    (evs : List Event) (key : String)
    (h : processPr st d = .ok (st2, evs, key)) :
    st2.get key = some (currentStateOf d)
    ∧ IsMaxOrZero (currentStateOf d).last_review_id (d.reviews.map Review.id)
    ∧ IsMaxOrZero (currentStateOf d).last_issue_comment_id
        (d.issue_comments.map IssueComment.id)
    ∧ IsMaxOrZero (currentStateOf d).last_review_comment_id
        (d.review_comments.map ReviewComment.id)
    ∧ IsMaxOrZero (currentStateOf d).last_check_run_id
        (d.check_runs.map CheckRun.id) := by
  obtain ⟨hkey, hst⟩ := processPr_ok_inv st d st2 evs key h
  subst hkey
  subst hst
  exact ⟨store_get_insert_self st _ _, maxId_isMaxOrZero _, maxId_isMaxOrZero _,
    maxId_isMaxOrZero _, maxId_isMaxOrZero _⟩

/-- C9 witness: the round-trip property evaluated on the CI scenario's
first observation. -/
theorem stored_ids_round_trip_witness :
    (Store.insert [] (prKeyOf ciData) (currentStateOf ciData)).get
        (prKeyOf ciData) = some (currentStateOf ciData)
    ∧ IsMaxOrZero (currentStateOf ciData).last_review_id
        (ciData.reviews.map Review.id)
    ∧ IsMaxOrZero (currentStateOf ciData).last_issue_comment_id
        (ciData.issue_comments.map IssueComment.id)
    ∧ IsMaxOrZero (currentStateOf ciData).last_review_comment_id
        (ciData.review_comments.map ReviewComment.id)
    ∧ IsMaxOrZero (currentStateOf ciData).last_check_run_id
        (ciData.check_runs.map CheckRun.id) :=
  stored_ids_round_trip [] ciData _ [] (prKeyOf ciData) rfl

/-- C8: a poll whose fetched data shows no change relative to the stored
snapshot — same mergeable state, no review, review-comment or
issue-comment id above the stored last ids, and check runs empty or
already all-completed previously with no id above the stored maximum —
fires zero hook events and merely refreshes the snapshot. -/
theorem unchanged_poll_no_events (st : Store) (d : PrFetchData)
    (prev : PrState)
    (hprev : st.get (prKeyOf d) = some prev)
    (hmerge : d.mergeable_state = prev.mergeable_state)
    (hrev : ∀ r ∈ d.reviews, r.id ≤ prev.last_review_id)
    (hrc : ∀ c ∈ d.review_comments, c.id ≤ prev.last_review_comment_id)
    (hic : ∀ c ∈ d.issue_comments, c.id ≤ prev.last_issue_comment_id)
    (hcr : d.check_runs = [] ∨ (allCompleted prev.check_runs = true ∧
      ∀ r ∈ d.check_runs, r.id ≤ prev.last_check_run_id)) :
    processPr st d =
      .ok (st.insert (prKeyOf d) (currentStateOf d), [], prKeyOf d) := by
  have h1 : d.reviews.filter (fun r => prev.last_review_id < r.id) = [] := by
    rw [List.filter_eq_nil_iff]
    intro r hr
    simpa using Nat.not_lt.mpr (hrev r hr)
  have h2 : d.review_comments.filter
      (fun c => prev.last_review_comment_id < c.id) = [] := by
    rw [List.filter_eq_nil_iff]
    intro c hc
    simpa using Nat.not_lt.mpr (hrc c hc)
  have h3 : d.issue_comments.filter
      (fun c => prev.last_issue_comment_id < c.id) = [] := by
    rw [List.filter_eq_nil_iff]
    intro c hc
    simpa using Nat.not_lt.mpr (hic c hc)
  have h4 : d.check_runs.filter (fun r => prev.last_check_run_id < r.id) = [] := by
    rcases hcr with hnil | ⟨_, hle⟩
    · rw [hnil]; rfl
    · rw [List.filter_eq_nil_iff]
      intro r hr
      simpa using Nat.not_lt.mpr (hle r hr)
  have hnr : handleNewReviews { repo := d.repo, number := d.number }
      d.reviews d.review_comments prev = .ok [] := by
    unfold handleNewReviews
    rw [h1, h2]
    rfl
  have hmc : handleMergeableChange { repo := d.repo, number := d.number }
      prev d.mergeable_state = [] := by
    unfold handleMergeableChange
    rw [if_pos hmerge]
  have hni : handleNewIssueComments { repo := d.repo, number := d.number }
      d.issue_comments prev.last_issue_comment_id = [] := by
    unfold handleNewIssueComments
    rw [h3]
    rfl
  have hci : handleCiStatusChange { repo := d.repo, number := d.number }
      prev d.check_runs = [] := by
    unfold handleCiStatusChange
    rw [h4]
    simp [sortById]
  simp only [processPr, hprev, hnr, hmc, hni, hci, List.append_nil,
    List.nil_append]

/-- C8 data: a previous snapshot with completed checks and all ids seen. -/
def idemPrev : PrState :=
  { mergeable_state := some "clean"
    check_runs := [{ id := 1, conclusion := some .success, status := .completed }]
    last_check_run_id := 1
    last_review_id := 5
    last_issue_comment_id := 3
    last_review_comment_id := 100 }

/-- C8 data: a current fetch showing nothing new. -/
def idemData : PrFetchData :=
  { repo := "octo/repo", number := 3, title := "t3"
    mergeable_state := some "clean", review_decision := none
    reviews := [{ id := 5, state := .approved, user := revUser }]
    issue_comments := [{ id := 3, user := revUser }]
    review_comments := [{ id := 100, pull_request_review_id := some 5,
                          in_reply_to_id := none, user := revUser }]
    check_runs := [{ id := 1, conclusion := some .success, status := .completed }] }

/-- C8 data: the store holding `idemPrev`. -/
def idemStore : Store := [(prKeyOf idemData, idemPrev)]

/-- C8 witness: re-polling the unchanged PR fires no event. -/
theorem unchanged_poll_no_events_witness :
    processPr idemStore idemData =
      .ok (Store.insert idemStore (prKeyOf idemData) (currentStateOf idemData),
        [], prKeyOf idemData) :=
  unchanged_poll_no_events idemStore idemData idemPrev rfl rfl
    (by decide) (by decide) (by decide)
    (Or.inr ⟨rfl, by decide⟩)

/-- The mergeable-state handler never emits a CI event. -/
theorem handleMergeableChange_no_ci (pr : PrRef) (previous : PrState)
    (current : Option String) :
    (handleMergeableChange pr previous current).filter Event.isCi = [] := by
  unfold handleMergeableChange
  by_cases h1 : current = previous.mergeable_state
  · rw [if_pos h1]; rfl
  · rw [if_neg h1]
    by_cases h2 : current = some "dirty"
    · rw [if_pos h2]; rfl
    · rw [if_neg h2]; rfl

/-- A successful review handler emits no event or one `new_review`
event, never a CI event. -/
theorem handleNewReviews_ok_shape (pr : PrRef) (rs : List Review)
    (cs : List ReviewComment) (previous : PrState) (evs : List Event)
    (h : handleNewReviews pr rs cs previous = .ok evs) :
    evs = [] ∨ ∃ entries, evs = [Event.new_review pr entries] := by
  unfold handleNewReviews at h
  simp only [] at h
  split at h
  · left
    cases h
    rfl
  · simp only [Bind.bind, Except.bind, pure, Except.pure] at h
    split at h
    · exact absurd h (by simp)
    · split at h
      · exact absurd h (by simp)
      · split at h
        · left
          cases h
          rfl
        · cases h
          right
          exact ⟨_, rfl⟩

/-- A successful review handler never emits a CI event. -/
theorem handleNewReviews_no_ci (pr : PrRef) (rs : List Review)
    (cs : List ReviewComment) (previous : PrState) (evs : List Event)
    (h : handleNewReviews pr rs cs previous = .ok evs) :
    evs.filter Event.isCi = [] := by
  rcases handleNewReviews_ok_shape pr rs cs previous evs h with rfl | ⟨entries, rfl⟩
  · rfl
  · rfl

/-- The issue-comment handler never emits a CI event. -/
theorem handleNewIssueComments_no_ci (pr : PrRef)
    (comments : List IssueComment) (last_comment_id : Nat) :
    (handleNewIssueComments pr comments last_comment_id).filter Event.isCi = [] := by
  unfold handleNewIssueComments
  by_cases h : (comments.filter (fun c => last_comment_id < c.id)).isEmpty
  · simp only [h]
    rfl
  · simp only [h]
    rfl

/-- Every event of the CI handler is a CI event. -/
theorem handleCiStatusChange_filter (pr : PrRef) (previous : PrState)
    (current : List CheckRun) :
    (handleCiStatusChange pr previous current).filter Event.isCi =
      handleCiStatusChange pr previous current := by
  unfold handleCiStatusChange
  rw [List.filter_map]
  have hcomp : (Event.isCi ∘ Event.ci_status_change pr) = fun _ => true := by
    funext x
    rfl
  rw [hcomp]
  simp

/-- C1 (amended): for a tracked PR, a successful `_process_pr` fires
`on_ci_status_change` once per fetched check run whose id exceeds the
stored `last_check_run_id`, in ascending id order and carrying that
check run — irrespective of any completion status. -/
theorem ci_events_are_new_runs (st : Store) (d : PrFetchData)
    (prev : PrState) (st2 : Store) (evs : List Event) (key : String)
    (hprev : st.get (prKeyOf d) = some prev)
    (hok : processPr st d = .ok (st2, evs, key)) :
    evs.filter Event.isCi =
      (sortById CheckRun.id
        (d.check_runs.filter (fun r => prev.last_check_run_id < r.id))).map
        (Event.ci_status_change { repo := d.repo, number := d.number }) := by
  simp only [processPr, hprev] at hok
  cases hr : handleNewReviews { repo := d.repo, number := d.number }
      d.reviews d.review_comments prev with
  | error e => rw [hr] at hok; simp at hok
  | ok ev2 =>
    rw [hr] at hok
    simp only [Except.ok.injEq, Prod.mk.injEq] at hok
    rw [← hok.2.1]
    simp only [List.filter_append]
    rw [handleMergeableChange_no_ci, handleNewReviews_no_ci _ _ _ _ _ hr,
      handleNewIssueComments_no_ci, handleCiStatusChange_filter]
    simp only [List.nil_append]
    rfl

/-- C1 counterexample: on the spec's own CI scenario — the previous
snapshot's single check run was in progress, the currently fetched runs
are non-empty and all completed (one failure) — the claimed condition
for firing holds, yet `_process_pr` fires no event at all (in
particular zero CI events), because the completed run's id does not
exceed the stored `last_check_run_id`. -/
theorem ci_completion_claim_false :
    ciData.check_runs ≠ []
    ∧ ciData.check_runs.all (fun r => r.status = CheckRunStatus.completed) = true
    ∧ allCompleted ciPrev.check_runs = false
    ∧ processPr ciStore ciData =
        .ok (Store.insert ciStore (prKeyOf ciData) (currentStateOf ciData),
          [], prKeyOf ciData) := by
  refine ⟨by decide, by decide, by decide, ?_⟩
  rfl

/-- C1 witness data: previous snapshot for a PR whose next poll brings a
new (still running) check run. -/
def ciPrev2 : PrState :=
  { mergeable_state := some "clean"
    check_runs := [{ id := 1, conclusion := none, status := .in_progress }]
    last_check_run_id := 1 }

/-- C1 witness data: current fetch with the old run completed and a new
in-progress run of id 2. -/
def ciData2 : PrFetchData :=
  { repo := "octo/repo", number := 4, title := "t4"
    mergeable_state := some "clean", review_decision := none
    reviews := [], issue_comments := [], review_comments := []
    check_runs := [{ id := 1, conclusion := some .success, status := .completed },
                   { id := 2, conclusion := none, status := .in_progress }] }

/-- C1 witness data: the store holding `ciPrev2`. -/
def ciStore2 : Store := [(prKeyOf ciData2, ciPrev2)]

/-- C1 witness: the amended CI statement evaluated on a poll that brings
one new check run, which is reported even though it is not completed. -/
theorem ci_events_are_new_runs_witness :
    ([Event.ci_status_change { repo := "octo/repo", number := 4 }
        { id := 2, conclusion := none, status := .in_progress }] : List Event).filter
        Event.isCi =
      (sortById CheckRun.id
        (ciData2.check_runs.filter
          (fun r => ciPrev2.last_check_run_id < r.id))).map
        (Event.ci_status_change { repo := ciData2.repo, number := ciData2.number }) :=
  ci_events_are_new_runs ciStore2 ciData2 ciPrev2 _ _ _ rfl rfl

/-- C2: on the spec's review scenario (two new reviews, one new inline
comment on each), `_process_pr` does not fire `on_new_review`; it raises
`AttributeError` for `review_id`, because `_handle_new_reviews` reads
`comment.review_id` while the `ReviewComment` model declares
`pull_request_review_id`. -/
theorem new_review_comments_attribute_error :
    processPr rvStore rvData = .error (.attributeError "review_id") := by
  rfl

/-- C3 counterexample: it is false that no error from `poll_once`
propagates out of the run loop — a single failing cycle terminates it. -/
theorem runner_error_swallow_claim_false :
    ¬ ∀ polls : List (Except PyError Unit), runLoop polls = none := by
  intro h
  exact absurd (h [.error (.attributeError "review_id")]) (by decide)

/-- C3 (amended): the run loop keeps polling while cycles succeed, and
the first error raised by a poll cycle escapes `run` unhandled,
terminating the loop with that error. -/
theorem run_loop_propagation :
    (∀ polls : List (Except PyError Unit),
        (∀ q ∈ polls, q = .ok ()) → runLoop polls = none)
    ∧ ∀ (pre post : List (Except PyError Unit)) (e : PyError),
        (∀ q ∈ pre, q = .ok ()) → runLoop (pre ++ .error e :: post) = some e := by
  constructor
  · intro polls h
    induction polls with
    | nil => rfl
    | cons q rest ih =>
      have hq := h q (List.mem_cons_self q rest)
      subst hq
      exact ih (fun p hp => h p (List.mem_cons_of_mem _ hp))
  · intro pre post e h
    induction pre with
    | nil => rfl
    | cons q rest ih =>
      have hq := h q (List.mem_cons_self q rest)
      subst hq
      exact ih (fun p hp => h p (List.mem_cons_of_mem _ hp))

/-- C3 witness: two successful cycles around a failing one — the loop
survives the successes and dies on the error. -/
theorem run_loop_propagation_witness :
    runLoop [Except.ok (), Except.error (PyError.attributeError "review_id"),
      Except.ok ()] = some (PyError.attributeError "review_id") :=
  run_loop_propagation.2 [Except.ok ()] [Except.ok ()]
    (PyError.attributeError "review_id") (by
      intro q hq
      simp only [List.mem_singleton] at hq
      exact hq)

/-- A start-match survives extending the scanned list on the right. -/
theorem listStartsWith_append (pat l b : List Char)
    (h : listStartsWith pat l = true) : listStartsWith pat (l ++ b) = true := by
  induction pat generalizing l with
  | nil => rfl
  | cons p ps ih =>
    cases l with
    | nil => simp [listStartsWith] at h
    | cons c cs =>
      simp only [listStartsWith, Bool.and_eq_true, List.cons_append] at h ⊢
      exact ⟨h.1, ih cs h.2⟩

/-- A pattern starts any list it prefixes. -/
theorem listStartsWith_self (pat rest : List Char) :
    listStartsWith pat (pat ++ rest) = true := by
  induction pat with
  | nil => rfl
  | cons p ps ih => simp [listStartsWith, List.cons_append, ih]

/-- An occurrence survives extending the scanned list on the right. -/
theorem containsSeq_append_right (pat a b : List Char)
    (h : containsSeq pat a = true) : containsSeq pat (a ++ b) = true := by
  induction a with
  | nil =>
    cases pat with
    | nil =>
      cases b with
      | nil => rfl
      | cons c cs => simp [containsSeq, listStartsWith]
    | cons p ps => simp [containsSeq, listStartsWith] at h
  | cons c cs ih =>
    simp only [containsSeq, Bool.or_eq_true, List.cons_append] at h ⊢
    rcases h with h | h
    · exact Or.inl (listStartsWith_append _ _ _ h)
    · exact Or.inr (ih h)

/-- An occurrence survives extending the scanned list on the left. -/
theorem containsSeq_append_left (pat a b : List Char)
    (h : containsSeq pat b = true) : containsSeq pat (a ++ b) = true := by
  induction a with
  | nil => simpa using h
  | cons c cs ih =>
    simp only [containsSeq, List.cons_append, Bool.or_eq_true]
    exact Or.inr ih

/-- A pattern occurs in any list it prefixes. -/
theorem containsSeq_self (pat rest : List Char) :
    containsSeq pat (pat ++ rest) = true := by
  cases h : pat ++ rest with
  | nil =>
    have hp : pat = [] := (List.append_eq_nil.mp h).1
    rw [hp]
    rfl
  | cons c cs =>
    simp only [containsSeq, Bool.or_eq_true]
    left
    rw [← h]
    exact listStartsWith_self pat rest

/-- A pattern occurs around any explicit split point. -/
theorem containsSeq_here (pat pre rest : List Char) :
    containsSeq pat (pre ++ (pat ++ rest)) = true :=
  containsSeq_append_left _ _ _ (containsSeq_self pat rest)

/-- The search URL's character data, with the constant head merged and
the concatenation right-associated. -/
theorem searchIssuesUrl_data (u : String) (p : Nat) :
    (searchIssuesUrl u p).data =
      "https://api.github.com/search/issues?q=is:pr+is:open+author:".data ++
        (u.data ++ ("+archived:false+-draft:true".data ++
          ("&per_page=100&page=".data ++ ((toString p).data ++
            "&sort=updated".data)))) := by
  have h : (searchIssuesUrl u p).data =
      "https://api.github.com/search/issues".data ++
        ("?q=is:pr+is:open+author:".data ++ (u.data ++
          ("+archived:false+-draft:true".data ++
            ("&per_page=100&page=".data ++ ((toString p).data ++
              "&sort=updated".data))))) := by
    simp only [searchIssuesUrl, String.data_append, List.append_assoc]
  rw [h, ← List.append_assoc]
  rfl

/-- One fetched-until-empty page sweep equals the concatenation of the
consecutive non-empty pages before the first empty page. -/
theorem paginateFrom_join {α : Type} (pages : Nat → List α) :
    ∀ (N fuel start : Nat), N + 1 ≤ fuel → pages (start + N) = [] →
    (∀ k, start ≤ k → k < start + N → pages k ≠ []) →
    paginateFrom pages start fuel = ((List.range' start N).map pages).flatten := by
  intro N
  induction N with
  | zero =>
    intro fuel start hfuel hempty _
    cases fuel with
    | zero => exact absurd hfuel (by omega)
    | succ f =>
      rw [Nat.add_zero] at hempty
      simp [paginateFrom, hempty, List.range']
  | succ n ih =>
    intro fuel start hfuel hempty hne
    cases fuel with
    | zero => exact absurd hfuel (by omega)
    | succ f =>
      have hstart : pages start ≠ [] := hne start (Nat.le_refl _) (by omega)
      have hiter : paginateFrom pages start (f + 1) =
          pages start ++ paginateFrom pages (start + 1) f := by
        simp only [paginateFrom]
        rw [if_neg (by simpa using hstart)]
      rw [hiter, ih f (start + 1) (by omega)
        (by rw [show start + 1 + n = start + (n + 1) by omega]; exact hempty)
        (fun k h1 h2 => hne k (by omega) (by omega))]
      have hrange : List.range' start (n + 1) = start :: List.range' (start + 1) n := by
        simp [List.range']
      rw [hrange]
      simp

/-- C4 counterexample: the monitor's PR search query does not contain
the `-review:approved` filter. -/
theorem search_query_lacks_approval_filter :
    strContainsSub (searchIssuesUrl "octocat" 1) "-review:approved" = false := by
  decide

/-- C4 (amended): the discovery query contains `is:pr`, `is:open`,
`author:<user>`, `archived:false`, `-draft:true` (but no
`-review:approved`) and requests 100 items per page; pagination starts
at page 1 and concatenates consecutive non-empty pages until the first
empty page. -/
theorem search_query_and_pagination :
    (∀ (u : String) (p : Nat),
      strContainsSub (searchIssuesUrl u p) "is:pr" = true
      ∧ strContainsSub (searchIssuesUrl u p) "is:open" = true
      ∧ strContainsSub (searchIssuesUrl u p) ("author:" ++ u) = true
      ∧ strContainsSub (searchIssuesUrl u p) "archived:false" = true
      ∧ strContainsSub (searchIssuesUrl u p) "-draft:true" = true
      ∧ strContainsSub (searchIssuesUrl u p) "per_page=100" = true)
    ∧ ∀ (α : Type) (pages : Nat → List α) (N fuel : Nat),
        N + 1 ≤ fuel → pages (N + 1) = [] →
        (∀ k, 1 ≤ k → k ≤ N → pages k ≠ []) →
        paginate pages fuel = ((List.range' 1 N).map pages).flatten := by
  constructor
  · intro u p
    refine ⟨?_, ?_, ?_, ?_, ?_, ?_⟩
    · unfold strContainsSub
      rw [searchIssuesUrl_data]
      exact containsSeq_append_right _ _ _ (by decide)
    · unfold strContainsSub
      rw [searchIssuesUrl_data]
      exact containsSeq_append_right _ _ _ (by decide)
    · unfold strContainsSub
      rw [String.data_append, searchIssuesUrl_data]
      have hsplit :
          ("https://api.github.com/search/issues?q=is:pr+is:open+author:".data :
            List Char) =
          "https://api.github.com/search/issues?q=is:pr+is:open+".data ++
            "author:".data := by decide
      rw [hsplit, List.append_assoc, ← List.append_assoc "author:".data u.data]
      exact containsSeq_here _ _ _
    · unfold strContainsSub
      rw [searchIssuesUrl_data]
      exact containsSeq_append_left _ _ _ (containsSeq_append_left _ _ _
        (containsSeq_append_right _ _ _ (by decide)))
    · unfold strContainsSub
      rw [searchIssuesUrl_data]
      exact containsSeq_append_left _ _ _ (containsSeq_append_left _ _ _
        (containsSeq_append_right _ _ _ (by decide)))
    · unfold strContainsSub
      rw [searchIssuesUrl_data]
      exact containsSeq_append_left _ _ _ (containsSeq_append_left _ _ _
        (containsSeq_append_left _ _ _ (containsSeq_append_right _ _ _
          (by decide))))
  · intro α pages N fuel hfuel hempty hne
    unfold paginate
    rw [paginateFrom_join pages N fuel 1 hfuel
      (by rw [Nat.add_comm]; exact hempty)
      (fun k h1 h2 => hne k h1 (by omega))]

/-- C4 witness: the query terms at a concrete username and page, and a
pagination run whose very first page is empty. -/
theorem search_query_and_pagination_witness :
    strContainsSub (searchIssuesUrl "octocat" 1) "is:pr" = true
    ∧ paginate (fun _ => ([] : List Nat)) 1 = [] :=
  ⟨(search_query_and_pagination.1 "octocat" 1).1,
    search_query_and_pagination.2 Nat (fun _ => []) 0 1 (by decide) rfl
      (fun k h1 h2 => absurd (Nat.le_trans h1 h2) (by decide))⟩

/-- The summarize key determines the title: two keys built from the same
repo and number but different titles differ. -/
theorem summarizePrKey_title_inj (r : String) (n : Nat) (t1 t2 : String)
    (h : summarizePrKey r n t1 = summarizePrKey r n t2) : t1 = t2 := by
  have hd := congrArg String.data h
  simp only [summarizePrKey, String.data_append, List.append_assoc] at hd
  have h1 := List.append_cancel_left hd
  have h2 := List.append_cancel_left h1
  have h3 := List.append_cancel_left h2
  have h4 := List.append_cancel_left h3
  have h5 := List.append_cancel_right h4
  exact String.ext h5

/-- C10: the monitor keys its store by the display string
`"{repo}#{number} ({title})"`, so a title change changes the key: the
poll after the change treats the PR as never seen — it emits zero
events, stores a fresh baseline under the new-title key, and the
old-title entry is removed by the stale sweep. -/
theorem title_keyed_identity (r t1 t2 : String) (n : Nat) (prev : PrState)
    (d : PrFetchData) (hne : t1 ≠ t2) (hr : d.repo = r) (hn : d.number = n)
    (ht : d.title = t2) :
    summarizePrKey r n t1 = r ++ "#" ++ toString n ++ " (" ++ t1 ++ ")"
    ∧ summarizePrKey r n t1 ≠ summarizePrKey r n t2
    ∧ pollOnce [(summarizePrKey r n t1, prev)] [d] =
        .ok ([(summarizePrKey r n t2, currentStateOf d)], []) := by
  have hkey : prKeyOf d = summarizePrKey r n t2 := by
    rw [prKeyOf, hr, hn, ht]
  have hbeq : (summarizePrKey r n t1 == summarizePrKey r n t2) = false := by
    rw [beq_eq_false_iff_ne]
    exact fun h => hne (summarizePrKey_title_inj r n t1 t2 h)
  have hget : Store.get [(summarizePrKey r n t1, prev)] (prKeyOf d) = none := by
    rw [hkey]
    simp [Store.get, List.find?_cons, hbeq]
  have hins : Store.insert [(summarizePrKey r n t1, prev)]
      (summarizePrKey r n t2) (currentStateOf d) =
      [(summarizePrKey r n t1, prev),
       (summarizePrKey r n t2, currentStateOf d)] := by
    unfold Store.insert
    rw [if_neg]
    · rfl
    · simp [hbeq]
  have hproc : processPr [(summarizePrKey r n t1, prev)] d =
      .ok ([(summarizePrKey r n t1, prev),
            (summarizePrKey r n t2, currentStateOf d)], [],
        summarizePrKey r n t2) := by
    have hbase := processPr_not_seen [(summarizePrKey r n t1, prev)] d hget
    rw [hkey] at hbase
    rw [hbase, hins]
  have hall : processAll [(summarizePrKey r n t1, prev)] [d] =
      .ok ([(summarizePrKey r n t1, prev),
            (summarizePrKey r n t2, currentStateOf d)], [],
        [summarizePrKey r n t2]) := by
    unfold processAll
    rw [hproc]
    simp only [processAll]
    rw [if_pos (summarizePrKey_ne_empty r n t2)]
    rfl
  refine ⟨rfl, fun h => hne (summarizePrKey_title_inj r n t1 t2 h), ?_⟩
  unfold pollOnce
  rw [hall]
  simp only [List.filter, List.contains, List.elem, hbeq, beq_self_eq_true]

/-- C10 witness data: the second poll's fetch after a title change. -/
def renamedData : PrFetchData :=
  { repo := "octo/repo", number := 7, title := "new"
    mergeable_state := some "dirty", review_decision := none
    reviews := [], issue_comments := [], review_comments := []
    check_runs := [] }

/-- C10 witness: a concrete title change from "old" to "new" resets the
PR's identity — no events, fresh baseline under the new key, old entry
swept. -/
theorem title_keyed_identity_witness :
    summarizePrKey "octo/repo" 7 "old" =
        "octo/repo" ++ "#" ++ toString 7 ++ " (" ++ "old" ++ ")"
    ∧ summarizePrKey "octo/repo" 7 "old" ≠ summarizePrKey "octo/repo" 7 "new"
    ∧ pollOnce [(summarizePrKey "octo/repo" 7 "old", {})] [renamedData] =
        .ok ([(summarizePrKey "octo/repo" 7 "new", currentStateOf renamedData)],
          []) :=
  title_keyed_identity "octo/repo" "old" "new" 7 {} renamedData
    (by decide) rfl rfl rfl
